import Mathlib

/-!
Shallow embedding of the caching/batching layer in src/cache.js of
apollo-datasource-airtable, together with theorems checking the
natural-language specification against it.

Conventions used throughout:
  - JavaScript strings are Lean Strings; JS scalar values (string, number,
    boolean) are the Scalar type; a JS value that is a scalar or an array of
    scalars is the FieldValue type.
  - JS objects used as field maps are association lists in insertion order
    with pairwise distinct keys.
  - A JS computation that can throw is an Except String value; a computation
    that can additionally fail to terminate is wrapped in Option, with none
    standing for divergence (a fuel bound that ran out at every depth).
-/

/-- A JS scalar value: string, number or boolean. -/
inductive Scalar
  | str (s : String)
  | num (n : Int)
  | boolean (b : Bool)
deriving DecidableEq

/-- A JS value that is either a scalar or an array of scalars, as accepted
for one field in a filter object. -/
inductive FieldValue
  | scalar (v : Scalar)
  | arr (vs : List Scalar)
deriving DecidableEq

/-- JS String(value) / value.toString() for scalars. -/
def scalarToString : Scalar → String
  | .str s => s
  | .num n => toString n
  | .boolean b => toString b

/-- JS value.toLowerCase(): ASCII lower-casing, which agrees with the JS
behaviour on the ASCII strings this development evaluates. -/
def jsLower (s : String) : String := ⟨s.data.map Char.toLower⟩

/-- Lexicographic comparison of char lists by code point, the order used by
the default Array.prototype.sort() comparator on strings. -/
def charListLe : List Char → List Char → Bool
  | [], _ => true
  | _ :: _, [] => false
  | a :: as, b :: bs =>
    if a.toNat < b.toNat then true
    else if b.toNat < a.toNat then false
    else charListLe as bs

/-- String comparison used to model the default sort() on field names. -/
def strLe (a b : String) : Bool := charListLe a.data b.data

theorem charListLe_total : ∀ as bs, charListLe as bs = true ∨ charListLe bs as = true := by
  intro as
  induction as with
  | nil => intro bs; left; rfl
  | cons a as ih =>
    intro bs
    cases bs with
    | nil => right; rfl
    | cons b bs =>
      rcases Nat.lt_trichotomy a.toNat b.toNat with h | h | h
      · left; simp [charListLe, h]
      · have hx : ¬ a.toNat < b.toNat := by omega
        have hy : ¬ b.toNat < a.toNat := by omega
        rcases ih bs with h2 | h2
        · left; simp [charListLe, hx, hy, h2]
        · right; simp [charListLe, hx, hy, h2]
      · right; simp [charListLe, h]

theorem charListLe_antisymm :
    ∀ as bs, charListLe as bs = true → charListLe bs as = true → as = bs := by
  intro as
  induction as with
  | nil =>
    intro bs _ h2
    cases bs with
    | nil => rfl
    | cons b bs => simp [charListLe] at h2
  | cons a as ih =>
    intro bs h1 h2
    cases bs with
    | nil => simp [charListLe] at h1
    | cons b bs =>
      rcases Nat.lt_trichotomy a.toNat b.toNat with hab | hab | hab
      · simp [charListLe, hab, Nat.lt_asymm hab] at h2
      · have hv : a = b := Char.ext (UInt32.ext hab)
        have hx : ¬ a.toNat < b.toNat := by omega
        have hy : ¬ b.toNat < a.toNat := by omega
        simp [charListLe, hx, hy] at h1 h2
        rw [hv, ih bs h1 h2]
      · simp [charListLe, hab, Nat.lt_asymm hab] at h1

theorem charListLe_trans :
    ∀ as bs cs, charListLe as bs = true → charListLe bs cs = true →
      charListLe as cs = true := by
  intro as
  induction as with
  | nil => intro bs cs _ _; rfl
  | cons a as ih =>
    intro bs cs h1 h2
    cases bs with
    | nil => simp [charListLe] at h1
    | cons b bs =>
      cases cs with
      | nil => simp [charListLe] at h2
      | cons c cs =>
        rcases Nat.lt_trichotomy a.toNat b.toNat with hab | hab | hab <;>
          rcases Nat.lt_trichotomy b.toNat c.toNat with hbc | hbc | hbc
        · simp [charListLe, Nat.lt_trans hab hbc]
        · simp [charListLe, hbc ▸ hab]
        · simp [charListLe, hbc, Nat.lt_asymm hbc] at h2
        · simp [charListLe, hab ▸ hbc]
        · have hx1 : ¬ a.toNat < b.toNat := by omega
          have hx2 : ¬ b.toNat < a.toNat := by omega
          have hx3 : ¬ b.toNat < c.toNat := by omega
          have hx4 : ¬ c.toNat < b.toNat := by omega
          have hx5 : ¬ a.toNat < c.toNat := by omega
          have hx6 : ¬ c.toNat < a.toNat := by omega
          simp [charListLe, hx1, hx2, hx3, hx4, hx5, hx6] at h1 h2 ⊢
          exact ih bs cs h1 h2
        · simp [charListLe, hbc, Nat.lt_asymm hbc] at h2
        · simp [charListLe, hab, Nat.lt_asymm hab] at h1
        · simp [charListLe, hab, Nat.lt_asymm hab] at h1
        · simp [charListLe, hab, Nat.lt_asymm hab] at h1

/-- The Prop form of the sort comparator. -/
def StrLeProp (a b : String) : Prop := strLe a b = true

instance : DecidableRel StrLeProp := fun a b => by
  unfold StrLeProp; infer_instance

instance : IsTotal String StrLeProp :=
  ⟨fun a b => charListLe_total a.data b.data⟩

instance : IsTrans String StrLeProp :=
  ⟨fun a b c => charListLe_trans a.data b.data c.data⟩

instance : IsAntisymm String StrLeProp :=
  ⟨fun a b h1 h2 => by
    cases a with
    | mk da =>
      cases b with
      | mk db => exact congrArg String.mk (charListLe_antisymm da db h1 h2)⟩

/-- Object.keys(obj).sort(): the field names in code-point order. -/
def sortStrings (l : List String) : List String := List.insertionSort StrLeProp l

theorem sortStrings_perm_invariant {l1 l2 : List String} (h : l1.Perm l2) :
    sortStrings l1 = sortStrings l2 :=
  List.eq_of_perm_of_sorted
    ((List.perm_insertionSort _ l1).trans (h.trans (List.perm_insertionSort _ l2).symm))
    (List.sorted_insertionSort _ l1) (List.sorted_insertionSort _ l2)

/-- EJSON.stringify of a scalar. -/
def serializeScalar : Scalar → String
  | .str s => "\"" ++ s ++ "\""
  | .num n => toString n
  | .boolean b => toString b

/-- EJSON.stringify of a scalar-or-array value. -/
def serializeFieldValue : FieldValue → String
  | .scalar v => serializeScalar v
  | .arr vs => "[" ++ String.intercalate ("," ) (vs.map serializeScalar) ++ "]"

/-- EJSON.stringify of a JS object given as an association list in insertion
order. -/
def serializeJsObj (obj : List (String × FieldValue)) : String :=
  "\x7b" ++
    String.intercalate (",")
      (obj.map fun p => "\"" ++ p.1 ++ "\":" ++ serializeFieldValue p.2) ++
    "\x7d"

/-- JS Array.isArray wrapping from cache.js lines 15-17: a scalar value is
wrapped in a one-element array, an array value is kept as is. -/
def wrapValue : FieldValue → List Scalar
  | .scalar v => [v]
  | .arr vs => vs

/-- mapFieldsToFilters from cache.js lines 4-24: sorts the field names,
wraps each value in an array, and serializes the resulting object (in sorted
key order) as the loader key. -/
def mapFieldsToFilters (filterFields : List (String × FieldValue)) :
    String × List (String × List Scalar) :=
  let sortedFields := sortStrings (filterFields.map Prod.fst)
  let fieldsToFilters :=
    sortedFields.filterMap fun n =>
      (filterFields.lookup n).map fun v => (n, wrapValue v)
  (serializeJsObj (fieldsToFilters.map fun p => (p.1, FieldValue.arr p.2)),
   fieldsToFilters)

/-- The raw Airtable record shape (_rawJson): an id, a creation time and a
field-name to value map. -/
structure RawRecord where
  id : String
  createdTime : String
  fields : List (String × FieldValue)
deriving DecidableEq

/-- One entry of the `filters` array built by the batch function: the single
key of the pushed one-key object, and its value, which is either the list of
all records (for the ALL sentinel) or a list of filter values. -/
inductive FilterPayload
  | records (recs : List RawRecord)
  | values (vs : List Scalar)
deriving DecidableEq

/-- Lower-cases each value of an array of filter or field values, as in
`values.map((val) => val.toLowerCase())` (cache.js lines 40 and 46); a
non-string value makes toLowerCase throw, modelled by none. -/
def lowerAll : List Scalar → Option (List String)
  | [] => some []
  | .str s :: vs => (lowerAll vs).map fun rest => jsLower s :: rest
  | _ :: _ => none

/-- The do-while loop of cache.js lines 49-57, indexed by fuel: each pass of
the body sets isMatch exactly when some filter value occurs in the wrapped
record values, and the loop repeats while isMatch is false.  none means the
fuel bound was reached without the loop exiting. -/
def matchLoop (wfv wrv : List String) : Nat → Option Bool
  | 0 => none
  | fuel + 1 =>
    let isMatch := wfv.any fun fv => wrv.contains fv
    if isMatch then some true else matchLoop wfv wrv fuel

/-- The predicate passed to results.filter in cache.js lines 36-60 for one
field name and its filter values.  some b is a normal return, none is a
thrown toLowerCase TypeError or a non-terminating do-while loop. -/
def recordTest (fieldName : String) (filterValues : List Scalar)
    (result : RawRecord) (fuel : Nat) : Option Bool :=
  match lowerAll filterValues with
  | none => none
  | some wfv =>
    match result.fields.lookup fieldName with
    | none => some false
    | some rv =>
      let wrvOpt : Option (List String) :=
        match rv with
        | .arr vs => lowerAll vs
        | .scalar v => some [jsLower (scalarToString v)]
      match wrvOpt with
      | none => none
      | some wrv => matchLoop wfv wrv fuel

/-- JS Array.prototype.filter with a predicate that can throw or diverge. -/
def jsFilter (p : RawRecord → Option Bool) : List RawRecord → Option (List RawRecord)
  | [] => some []
  | r :: rs =>
    match p r with
    | none => none
    | some b =>
      match jsFilter p rs with
      | none => none
      | some rest => some (if b then r :: rest else rest)

/-- One entry of orderRecords (cache.js lines 27-62): the ALL entry returns
its stored record list, any other entry filters the collected results with
the per-record match test.  The mismatched cases (an ALL entry holding
filter values, a field entry holding records) are never built by the batch
function and return an empty list here. -/
def orderRecordsEntry (results : List RawRecord) (fuel : Nat) :
    String × FilterPayload → Option (List RawRecord)
  | (fieldName, payload) =>
    if fieldName == "ALL" then
      match payload with
      | .records recs => some recs
      | .values _ => some []
    else
      match payload with
      | .values vs => jsFilter (fun r => recordTest fieldName vs r fuel) results
      | .records _ => some []

/-- orderRecords from cache.js lines 26-63: one reconciled list per filters
entry. -/
def orderRecords (filters : List (String × FilterPayload))
    (results : List RawRecord) (fuel : Nat) : List (Option (List RawRecord)) :=
  filters.map (orderRecordsEntry results fuel)

/-- A remote query issued through table.select: either the unfiltered
all-records query of the ALL branch, or a filtered query carrying its
filterByFormula string (both use the Grid view). -/
inductive SelectParams
  | allParams
  | filtered (formula : String)
deriving DecidableEq

/-- A key submitted to the DataLoader: the ALL sentinel string, or the
EJSON-parsed filter object of a serialized key. -/
inductive BatchKey
  | all
  | filt (obj : List (String × FieldValue))
deriving DecidableEq

/-- The string under which a key is submitted to (and deduplicated by) the
DataLoader. -/
def keyString : BatchKey → String
  | .all => "ALL"
  | .filt obj => serializeJsObj obj

/-- The mutable state of one run of the DataLoader batch function, plus an
instrumentation log of the remote queries issued. -/
structure BatchState where
  filters : List (String × FilterPayload)
  results : List RawRecord
  calls : List SelectParams
deriving DecidableEq

/-- The switch cases string of cache.js lines 110-112, one case per filter
value. -/
def mkCases (values : List Scalar) : String :=
  String.intercalate (",") (values.map fun v => "\"" ++ scalarToString v ++ "\", 1")

/-- The per-field formula of cache.js line 113; the reserved field name id
maps to RECORD_ID() instead of a column reference. -/
def mkFormula (fieldName : String) (values : List Scalar) : String :=
  "(SWITCH(" ++
    (if fieldName == "id" then "RECORD_ID()" else "\x7b" ++ fieldName ++ "\x7d") ++
    "," ++ mkCases values ++ ", 0))=1"

/-- Object.keys(obj).sort().join() with the default comma separator, as used
to compare field-name sets in cache.js lines 85-90. -/
def sortedKeysJoined (names : List String) : String :=
  String.intercalate (",") (sortStrings names)

/-- The filters.find of cache.js lines 85-90: the first pushed filter object
whose sorted key list matches that of the current key object. -/
def findExisting (filters : List (String × FilterPayload))
    (currObj : List (String × FieldValue)) : Option (String × FilterPayload) :=
  filters.find? fun e =>
    sortedKeysJoined [e.1] == sortedKeysJoined (currObj.map Prod.fst)

/-- Processing of one key inside the batch function loop, cache.js lines
72-137.  When a previously pushed filter object with the same sorted field
names is found, the merge path evaluates the spread of
fields[fieldName].values where fields[fieldName] is a plain array, so
.values is undefined and spreading it throws a TypeError; that throw is the
error case here.  Otherwise the per-field formulas are built, one filters
entry is pushed per field name, and one filtered select is awaited for this
key. -/
def processKey (store : SelectParams → Except String (List RawRecord))
    (st : BatchState) : BatchKey → Except String BatchState
  | .all =>
    match store .allParams with
    | .error e => .error e
    | .ok recs =>
      .ok { st with
        filters := st.filters ++ [(("ALL"), FilterPayload.records recs)],
        calls := st.calls ++ [SelectParams.allParams] }
  | .filt currObj =>
    match findExisting st.filters currObj with
    | some _ => .error ("TypeError: undefined is not iterable")
    | none =>
      let fields := currObj.map fun p => (p.1, wrapValue p.2)
      let filterFormulas := fields.map fun p => mkFormula p.1 p.2
      let newFilters := fields.map fun p => (p.1, FilterPayload.values p.2)
      let params :=
        SelectParams.filtered ("OR(" ++ String.intercalate (",") filterFormulas ++ ")")
      match store params with
      | .error e => .error e
      | .ok recs =>
        .ok { filters := st.filters ++ newFilters,
              results := st.results ++ recs,
              calls := st.calls ++ [params] }

/-- The for-await loop over the batched keys, cache.js lines 72-137; a
rejection anywhere rejects the whole batch. -/
def runBatch (store : SelectParams → Except String (List RawRecord)) :
    BatchState → List BatchKey → Except String BatchState
  | st, [] => .ok st
  | st, k :: ks =>
    match processKey store st k with
    | .error e => .error e
    | .ok st2 => runBatch store st2 ks

/-- The whole batch function body on the deduplicated keys of one dispatch
window, before reconciliation. -/
def runBatchState (store : SelectParams → Except String (List RawRecord))
    (keys : List BatchKey) : Except String BatchState :=
  runBatch store ⟨[], [], []⟩ keys

/-- DataLoader deduplication of the keys loaded during one window: the first
occurrence of each distinct key string is kept, in submission order. -/
def dedupKeys : List BatchKey → List BatchKey
  | [] => []
  | k :: ks => k :: (dedupKeys ks).filter fun k2 => keyString k2 != keyString k

/-- How many filtered (non-sentinel) remote queries a call log contains. -/
def countFiltered (calls : List SelectParams) : Nat :=
  calls.countP fun c =>
    match c with
    | .filtered _ => true
    | .allParams => false

/-- Sequences the per-entry reconciliation results; none if any entry
diverged. -/
def sequenceEntries : List (Option (List RawRecord)) → Option (List (List RawRecord))
  | [] => some []
  | none :: _ => none
  | some v :: rest =>
    match sequenceEntries rest with
    | none => none
    | some vs => some (v :: vs)

/-- A JS async computation observed from outside: none is divergence,
some (error e) a rejection, some (ok a) a fulfilled value. -/
def JsResult (α : Type) : Type := Option (Except String α)

/-- One full DataLoader dispatch: run the batch body over the deduplicated
window keys, then reconcile.  DataLoader itself rejects every key of the
window when the returned array length differs from the key count. -/
def dispatchWindow (store : SelectParams → Except String (List RawRecord))
    (fuel : Nat) (keys : List BatchKey) : JsResult (List (List RawRecord) × BatchState) :=
  match runBatchState store keys with
  | .error e => some (.error e)
  | .ok st =>
    if st.filters.length != keys.length then
      some (.error ("DataLoader: batch length mismatch"))
    else
      match sequenceEntries (orderRecords st.filters st.results fuel) with
      | none => none
      | some vals => some (.ok (vals, st))

/-- A value stored in the shared cache: findOneById stores the first element
of its reconciled list (possibly undefined, modelled by none), findAll
stores a record list. -/
inductive CacheValue
  | one (r : Option RawRecord)
  | many (l : List RawRecord)
deriving DecidableEq

/-- JS truthiness of a cache.get result: a missing entry and a stored
undefined are falsy; a record object and any array (even empty) are truthy. -/
def truthy : Option CacheValue → Bool
  | none => false
  | some (.one none) => false
  | some (.one (some _)) => true
  | some (.many _) => true

/-- JS truthiness of the ttl option: absent and 0 are falsy. -/
def ttlTruthy : Option Nat → Bool
  | some (_ + 1) => true
  | _ => false

/-- The request-scoped state visible to the facade methods: the DataLoader
memoization map (key string to resolved record list), the shared cache, and
an instrumentation log of the remote queries issued so far. -/
structure SysState where
  loaderCache : List (String × List RawRecord)
  sharedCache : List (String × CacheValue)
  calls : List SelectParams
deriving DecidableEq

/-- The table-scoped cache key prefix of cache.js line 142. -/
def cacheKeyBase (tableName : String) : String := "airtable-" ++ tableName ++ "-"

/-- loader.load(key) for a sequential call that opens its own dispatch
window: a memoized key resolves without remote work, otherwise the window
holding just this key is dispatched, the reconciled list for the key is
taken from position 0, and the result is memoized. -/
def loaderLoad (store : SelectParams → Except String (List RawRecord))
    (fuel : Nat) (key : BatchKey) (st : SysState) :
    JsResult (List RawRecord × SysState) :=
  match st.loaderCache.lookup (keyString key) with
  | some recs => some (.ok (recs, st))
  | none =>
    match dispatchWindow store fuel [key] with
    | none => none
    | some (.error e) => some (.error e)
    | some (.ok (vals, bst)) =>
      let recs := vals.headD []
      some (.ok (recs,
        { st with
          loaderCache := st.loaderCache ++ [(keyString key, recs)],
          calls := st.calls ++ bst.calls }))

/-- cache.set under a key, replacing any previous entry. -/
def cacheSet (st : SysState) (key : String) (v : CacheValue) : SysState :=
  { st with sharedCache := (st.sharedCache.filter fun p => p.1 != key) ++ [(key, v)] }

/-- The batch key submitted by findOneById: the serialized one-field object
with the plain (unwrapped) id string. -/
def idBatchKey (id : String) : BatchKey :=
  .filt [(("id"), FieldValue.scalar (Scalar.str id))]

/-- The remote query that the batch function issues for a single id-lookup
key. -/
def idParams (id : String) : SelectParams :=
  SelectParams.filtered ("OR(" ++ mkFormula ("id") [Scalar.str id] ++ ")")

/-- findOneById from cache.js lines 145-164: shared-cache hit returns the
cached value, otherwise the id key is loaded through the DataLoader, on a
truthy ttl the first element is stored, and the first element is returned
(undefined, modelled none, when the reconciled list is empty).  The
cached-value branch for a list-shaped entry cannot arise under the key
discipline of the facade and returns none. -/
def findOneByIdOp (store : SelectParams → Except String (List RawRecord))
    (fuel : Nat) (tableName : String) (id : String) (ttl : Option Nat)
    (st : SysState) : JsResult (Option RawRecord × SysState) :=
  let cacheKey := cacheKeyBase tableName ++ id
  let cached := st.sharedCache.lookup cacheKey
  if truthy cached then
    match cached with
    | some (.one r) => some (.ok (r, st))
    | _ => some (.ok (none, st))
  else
    match loaderLoad store fuel (idBatchKey id) st with
    | none => none
    | some (.error e) => some (.error e)
    | some (.ok (recs, st2)) =>
      let st3 := if ttlTruthy ttl then cacheSet st2 cacheKey (.one recs.head?) else st2
      some (.ok (recs.head?, st3))

/-- The batch key submitted by findByFields: the EJSON-parse of the loader
key, whose values are the wrapped arrays of fieldsToFilters. -/
def filtersToObj (l : List (String × List Scalar)) : List (String × FieldValue) :=
  l.map fun p => (p.1, FieldValue.arr p.2)

/-- The batch key a findByFields call on the given field map ends up with. -/
def fieldsKey (filterFields : List (String × FieldValue)) : BatchKey :=
  .filt (filtersToObj (mapFieldsToFilters filterFields).2)

/-- The remote query that the batch function issues for one findByFields
key. -/
def fieldsParams (filterFields : List (String × FieldValue)) : SelectParams :=
  SelectParams.filtered ("OR(" ++
    String.intercalate (",")
      (((mapFieldsToFilters filterFields).2).map fun p => mkFormula p.1 p.2) ++ ")")

/-- findByFields from cache.js lines 168-191: the loader key is derived, the
shared cache is read but the hit-return is commented out in the source, so
the value is discarded; the loader result is returned and the cache.set
with ttl is likewise commented out. -/
def findByFieldsOp (store : SelectParams → Except String (List RawRecord))
    (fuel : Nat) (tableName : String) (filterFields : List (String × FieldValue))
    (ttl : Option Nat) (st : SysState) :
    JsResult (List RawRecord × SysState) :=
  let loaderKey := (mapFieldsToFilters filterFields).1
  let cacheKey := cacheKeyBase tableName ++ loaderKey
  let cachedResult := st.sharedCache.lookup cacheKey
  let _ := cachedResult
  let _ := ttl
  loaderLoad store fuel (fieldsKey filterFields) st

/-- findAll from cache.js lines 192-209: cache hit under the fixed all key
returns the cached list, otherwise the ALL sentinel is loaded and the list
is stored when ttl is truthy.  The one-record-shaped cache entry cannot
arise under the key discipline of the facade and returns an empty list. -/
def findAllOp (store : SelectParams → Except String (List RawRecord))
    (fuel : Nat) (tableName : String) (ttl : Option Nat) (st : SysState) :
    JsResult (List RawRecord × SysState) :=
  let cacheKey := cacheKeyBase tableName ++ "all"
  let cached := st.sharedCache.lookup cacheKey
  if truthy cached then
    match cached with
    | some (.many l) => some (.ok (l, st))
    | _ => some (.ok ([], st))
  else
    match loaderLoad store fuel BatchKey.all st with
    | none => none
    | some (.error e) => some (.error e)
    | some (.ok (recs, st2)) =>
      let st3 := if ttlTruthy ttl then cacheSet st2 cacheKey (.many recs) else st2
      some (.ok (recs, st3))

/-- cache.delete / loader.clear on a key. -/
def cacheDelete (entries : List (String × CacheValue)) (key : String) :
    List (String × CacheValue) :=
  entries.filter fun p => p.1 != key

/-- deleteFromCacheById from cache.js lines 210-214: clears the loader key
for the id object and deletes the shared cache entry under the id key. -/
def deleteFromCacheByIdOp (tableName : String) (id : String) (st : SysState) : SysState :=
  { st with
    loaderCache := st.loaderCache.filter fun p => p.1 != keyString (idBatchKey id),
    sharedCache := cacheDelete st.sharedCache (cacheKeyBase tableName ++ id) }

/-- deleteFromCacheByFields from cache.js lines 215-220: clears the loader
key for the normalized field map, but the cache key is built as
cachePrefix + loader, concatenating the DataLoader object itself, which
stringifies to [object Object]; the shared delete therefore targets that
fixed key instead of the key findByFields reads. -/
def deleteFromCacheByFieldsOp (tableName : String)
    (fields : List (String × FieldValue)) (st : SysState) : SysState :=
  let loaderKey := (mapFieldsToFilters fields).1
  let cacheKey := cacheKeyBase tableName ++ "[object Object]"
  { st with
    loaderCache := st.loaderCache.filter fun p => p.1 != loaderKey,
    sharedCache := cacheDelete st.sharedCache cacheKey }

/-- The fulfilled value of an async result, discarding the state. -/
def resultValue {α β : Type} : JsResult (α × β) → Option (Except String α)
  | none => none
  | some (.error e) => some (.error e)
  | some (.ok (a, _)) => some (.ok a)

/-- The remote-query log after a fulfilled facade call. -/
def callsAfter {α : Type} : JsResult (α × SysState) → Option (List SelectParams)
  | some (.ok (_, st)) => some st.calls
  | _ => none

/-- The shared cache after a fulfilled facade call. -/
def sharedAfter {α : Type} : JsResult (α × SysState) → Option (List (String × CacheValue))
  | some (.ok (_, st)) => some st.sharedCache
  | _ => none

/-- Number of filtered remote queries issued by one batch run (zero when the
batch rejects). -/
def batchFilteredCount (store : SelectParams → Except String (List RawRecord))
    (keys : List BatchKey) : Nat :=
  match runBatchState store keys with
  | .ok st => countFiltered st.calls
  | .error _ => 0

/-- Sequential composition: await findAll(), then await findOneById(id),
both without ttl. -/
def findAllThenById (store : SelectParams → Except String (List RawRecord))
    (fuel : Nat) (tableName id : String) (st : SysState) :
    JsResult (Option RawRecord × SysState) :=
  match findAllOp store fuel tableName none st with
  | none => none
  | some (.error e) => some (.error e)
  | some (.ok (_, st1)) => findOneByIdOp store fuel tableName id none st1

theorem string_data_append (a b : String) : (a ++ b).data = a.data ++ b.data := rfl

theorem lookup_perm_eq {β : Type} {l1 l2 : List (String × β)} (h : l1.Perm l2)
    (hnd : (l1.map Prod.fst).Nodup) : ∀ a, l1.lookup a = l2.lookup a := by
  induction h with
  | nil => intro _; rfl
  | cons x h ih =>
    intro a
    obtain ⟨k, v⟩ := x
    simp only [List.map_cons, List.nodup_cons] at hnd
    simp only [List.lookup]
    cases hk : a == k with
    | true => rfl
    | false => simp only [ih hnd.2 a]
  | swap x y l =>
    intro a
    obtain ⟨k1, v1⟩ := x
    obtain ⟨k2, v2⟩ := y
    simp only [List.map_cons, List.nodup_cons, List.mem_cons] at hnd
    have hne : k2 ≠ k1 := fun hcontra => hnd.1 (Or.inl hcontra)
    simp only [List.lookup]
    cases hk2 : a == k2 with
    | true =>
      cases hk1 : a == k1 with
      | true =>
        exact absurd ((eq_of_beq hk2).symm.trans (eq_of_beq hk1)) hne
      | false => rfl
    | false =>
      cases hk1 : a == k1 with
      | true => rfl
      | false => rfl
  | trans h1 h2 ih1 ih2 =>
    intro a
    have hndMid : ((_ : List (String × β)).map Prod.fst).Nodup := (h1.map Prod.fst).nodup hnd
    rw [ih1 hnd a, ih2 hndMid a]

theorem mapFieldsToFilters_congr {l1 l2 : List (String × FieldValue)}
    (hkeys : (l1.map Prod.fst).Perm (l2.map Prod.fst))
    (hlookup : ∀ a, l1.lookup a = l2.lookup a) :
    mapFieldsToFilters l1 = mapFieldsToFilters l2 := by
  have hs : sortStrings (l1.map Prod.fst) = sortStrings (l2.map Prod.fst) :=
    sortStrings_perm_invariant hkeys
  have hf : (sortStrings (l1.map Prod.fst)).filterMap
        (fun n => (l1.lookup n).map fun v => (n, wrapValue v)) =
      (sortStrings (l2.map Prod.fst)).filterMap
        (fun n => (l2.lookup n).map fun v => (n, wrapValue v)) := by
    rw [hs]
    exact List.filterMap_congr fun n _ => by rw [hlookup n]
  unfold mapFieldsToFilters
  simp only [hf]

theorem lookup_append_none {β : Type} (l1 l2 : List (String × β)) (a : String)
    (h : l1.lookup a = none) : (l1 ++ l2).lookup a = l2.lookup a := by
  induction l1 with
  | nil => rfl
  | cons x xs ih =>
    obtain ⟨k, v⟩ := x
    simp only [List.lookup, List.cons_append] at h ⊢
    cases hk : a == k with
    | true => rw [hk] at h; cases h
    | false => rw [hk] at h; exact ih h

theorem keyString_filt_ne_all (obj : List (String × FieldValue)) :
    keyString (BatchKey.filt obj) ≠ ("ALL") := by
  intro h
  have hdata := congrArg String.data h
  simp only [keyString, serializeJsObj, string_data_append] at hdata
  have : ('\x7b' :: (String.intercalate (",")
      (obj.map fun p => "\"" ++ p.1 ++ "\":" ++ serializeFieldValue p.2)).data ++ ['\x7d']) =
      ['A', 'L', 'L'] := hdata
  cases this

theorem filtersToObj_wrap (l : List (String × List Scalar)) :
    ((filtersToObj l).map fun p => (p.1, wrapValue p.2)) = l := by
  induction l with
  | nil => rfl
  | cons a as ih =>
    obtain ⟨n, vs⟩ := a
    simp only [filtersToObj, List.map_cons, wrapValue] at ih ⊢
    rw [ih]

/-- C9: permuting the order in which fields are given does not change the
produced loader key, because field names are sorted before serializing. -/
theorem c9_normalize_order_independent (l1 l2 : List (String × FieldValue))
    (hperm : l1.Perm l2) (hnd : (l1.map Prod.fst).Nodup) :
    (mapFieldsToFilters l1).1 = (mapFieldsToFilters l2).1 :=
  congrArg Prod.fst
    (mapFieldsToFilters_congr (hperm.map Prod.fst) (lookup_perm_eq hperm hnd))

theorem c9_normalize_order_independent_witness :
    (mapFieldsToFilters
        [(("b"), FieldValue.scalar (Scalar.num 2)), (("a"), FieldValue.scalar (Scalar.num 1))]).1 =
      (mapFieldsToFilters
        [(("a"), FieldValue.scalar (Scalar.num 1)), (("b"), FieldValue.scalar (Scalar.num 2))]).1 :=
  c9_normalize_order_independent _ _ (by decide) (by decide)

/-- C8 counterexample: two requests with the same field name and value sets
that are equal after case-normalization serialize to different keys,
because mapFieldsToFilters does not lower-case values. -/
theorem c8_values_not_case_normalized :
    (mapFieldsToFilters [(("tag"), FieldValue.scalar (Scalar.str ("X")))]).1 ≠
      (mapFieldsToFilters [(("tag"), FieldValue.scalar (Scalar.str ("x")))]).1 ∧
    jsLower ("X") = jsLower ("x") := by
  exact ⟨by decide, by decide⟩

/-- C8 amended: two filter requests with the same field names and literally
identical values per field (case preserved, list order preserved) serialize
to the identical key, irrespective of field order. -/
theorem c8_amended_exact_values_same_key (l1 l2 : List (String × FieldValue))
    (hkeys : (l1.map Prod.fst).Perm (l2.map Prod.fst))
    (hlookup : ∀ a, l1.lookup a = l2.lookup a) :
    (mapFieldsToFilters l1).1 = (mapFieldsToFilters l2).1 :=
  congrArg Prod.fst (mapFieldsToFilters_congr hkeys hlookup)

theorem c8_amended_exact_values_same_key_witness :
    (mapFieldsToFilters
        [(("b"), FieldValue.arr [Scalar.str ("B")]), (("a"), FieldValue.scalar (Scalar.str ("A")))]).1 =
      (mapFieldsToFilters
        [(("a"), FieldValue.scalar (Scalar.str ("A"))), (("b"), FieldValue.arr [Scalar.str ("B")])]).1 :=
  c8_amended_exact_values_same_key _ _ (by decide) (fun a => by
    by_cases hb : (("b") : String) = a
    · subst hb; rfl
    · by_cases ha : (("a") : String) = a
      · subst ha; rfl
      · have hb2 : (a == ("b")) = false := beq_eq_false_iff_ne.mpr (Ne.symm hb)
        have ha2 : (a == ("a")) = false := beq_eq_false_iff_ne.mpr (Ne.symm ha)
        simp [List.lookup, hb2, ha2])

theorem matchLoop_no_match {wfv wrv : List String}
    (h : (wfv.any fun fv => wrv.contains fv) = false) :
    ∀ fuel, matchLoop wfv wrv fuel = none := by
  intro fuel
  induction fuel with
  | zero => rfl
  | succ n ih => simp only [matchLoop, h, if_false]; exact ih

/-- A record lying in a returned batch whose interests value matches none of
the filter values for the key being reconciled. -/
def c3Record : RawRecord :=
  ⟨("rec2"), (""), [(("interests"), FieldValue.arr [Scalar.str ("games")])]⟩

/-- C3: refuted on the code.  When none of the filter values occurs among
the record values, isMatch stays false after the for pass and the do-while
guard never releases, so the per-record match test runs out of any fuel
bound: the scan does not terminate. -/
theorem c3_match_test_diverges_on_mismatch :
    ∀ fuel, recordTest ("interests") [Scalar.str ("gaming")] c3Record fuel = none := by
  intro fuel
  exact matchLoop_no_match (by decide) fuel

theorem jsFilter_mem_of_true {p : RawRecord → Option Bool} :
    ∀ {l out : List RawRecord} {r : RawRecord},
      jsFilter p l = some out → r ∈ l → p r = some true → r ∈ out := by
  intro l
  induction l with
  | nil => intro out r h hr; cases hr
  | cons a as ih =>
    intro out r h hr hp
    simp only [jsFilter] at h
    cases hpa : p a with
    | none => rw [hpa] at h; cases h
    | some b =>
      rw [hpa] at h
      cases hrest : jsFilter p as with
      | none => rw [hrest] at h; cases h
      | some rest =>
        rw [hrest] at h
        injection h with h
        subst h
        rcases List.mem_cons.mp hr with rfl | hr2
        · have hb : b = true := by rw [hp] at hpa; exact (Option.some.inj hpa).symm
          subst hb
          simp
        · have hmem := ih hrest hr2 hp
          cases b
          · simpa using hmem
          · simpa using Or.inr hmem

/-- C10: reconciliation matching is case-insensitive.  A record whose field
value equals a filter value up to letter case passes the per-record match
test, and it is returned to the caller as the very same record object, with
its original casing. -/
theorem c10_case_insensitive_match (fieldName fv rv : String) (r : RawRecord)
    (results out : List RawRecord) (fuel : Nat)
    (hfield : r.fields.lookup fieldName = some (FieldValue.scalar (Scalar.str rv)))
    (hcase : jsLower rv = jsLower fv)
    (hfuel : 0 < fuel)
    (hout : jsFilter (fun x => recordTest fieldName [Scalar.str fv] x fuel) results = some out)
    (hr : r ∈ results) :
    recordTest fieldName [Scalar.str fv] r fuel = some true ∧ r ∈ out := by
  have htest : recordTest fieldName [Scalar.str fv] r fuel = some true := by
    cases fuel with
    | zero => cases hfuel
    | succ n =>
      simp only [recordTest, lowerAll, Option.map_some', Option.map_none', hfield,
        scalarToString]
      simp [matchLoop, hcase]
  exact ⟨htest, jsFilter_mem_of_true hout hr htest⟩

/-- A record carrying the capitalized field value of the spec example. -/
def c10Record : RawRecord :=
  ⟨("r1"), (""), [(("category"), FieldValue.scalar (Scalar.str ("Gaming")))]⟩

theorem c10_case_insensitive_match_witness :
    recordTest ("category") [Scalar.str ("gaming")] c10Record 1 = some true ∧
      c10Record ∈ [c10Record] :=
  c10_case_insensitive_match ("category") ("gaming") ("Gaming") c10Record
    [c10Record] [c10Record] 1 (by decide) (by decide) (by decide) (by decide) (by decide)

/-- C2: when the remote store returns no matching record, findOneById
resolves to the first element of the reconciled list, which is the absent
value (modelled none) for an empty list: no rejection and no divergence. -/
theorem c2_findOneById_zero_matches_returns_null
    (store : SelectParams → Except String (List RawRecord))
    (fuel : Nat) (tableName id : String) (ttl : Option Nat) (st : SysState)
    (hcache : st.sharedCache.lookup (cacheKeyBase tableName ++ id) = none)
    (hloader : st.loaderCache.lookup (keyString (idBatchKey id)) = none)
    (hstore : ∀ p, store p = Except.ok []) :
    resultValue (findOneByIdOp store fuel tableName id ttl st) =
      some (Except.ok none) := by
  have hloader2 : st.loaderCache.lookup
      (keyString (BatchKey.filt [(("id"), FieldValue.scalar (Scalar.str id))])) = none :=
    hloader
  simp only [findOneByIdOp, loaderLoad, dispatchWindow, runBatchState, runBatch,
    processKey, findExisting, hcache, hloader2, hstore, truthy, orderRecords,
    orderRecordsEntry, sequenceEntries, jsFilter, idBatchKey, List.find?,
    List.map, wrapValue, List.length, resultValue]
  simp [resultValue]

theorem c2_findOneById_zero_matches_returns_null_witness :
    resultValue (findOneByIdOp (fun _ => Except.ok []) 0 ("users") ("r3") none
      ⟨[], [], []⟩) = some (Except.ok none) :=
  c2_findOneById_zero_matches_returns_null (fun _ => Except.ok []) 0 ("users") ("r3")
    none ⟨[], [], []⟩ rfl rfl (fun _ => rfl)

/-- C4 counterexample: with a rejecting remote store, a findByFields call
receives the rejection itself, not an empty result list — the batch body has
no catch, so the error is neither logged nor converted to zero results. -/
theorem c4_remote_error_propagates_to_caller :
    findByFieldsOp (fun _ => Except.error ("network down")) 1 ("tbl")
      [(("a"), FieldValue.scalar (Scalar.str ("1")))] none ⟨[], [], []⟩ =
      some (Except.error ("network down")) := rfl

/-- C4 amended: when every remote select of a window rejects, the batch body
rethrows the first rejection, so the whole window settles (no pending call
is left unresolved) but with that error for every key, instead of empty
per-key results. -/
theorem c4_amended_window_rejects_with_store_error
    (store : SelectParams → Except String (List RawRecord)) (e : String)
    (fuel : Nat) (keys : List BatchKey)
    (hstore : ∀ p, store p = Except.error e) (hne : keys ≠ []) :
    dispatchWindow store fuel keys = some (Except.error e) := by
  cases keys with
  | nil => exact absurd rfl hne
  | cons k ks =>
    cases k with
    | all =>
      simp only [dispatchWindow, runBatchState, runBatch, processKey, hstore]
    | filt obj =>
      simp only [dispatchWindow, runBatchState, runBatch, processKey, findExisting,
        List.find?, hstore]

theorem c4_amended_window_rejects_with_store_error_witness :
    dispatchWindow (fun _ => Except.error ("boom")) 1 [BatchKey.all] =
      some (Except.error ("boom")) :=
  c4_amended_window_rejects_with_store_error (fun _ => Except.error ("boom"))
    ("boom") 1 [BatchKey.all] (fun _ => rfl) (by decide)

theorem runBatchState_single_fields
    (store : SelectParams → Except String (List RawRecord))
    (l : List (String × List Scalar)) (recs : List RawRecord)
    (hstore : store (SelectParams.filtered ("OR(" ++
        String.intercalate (",") (l.map fun p => mkFormula p.1 p.2) ++ ")")) =
      Except.ok recs) :
    runBatchState store [BatchKey.filt (filtersToObj l)] =
      Except.ok ⟨l.map fun p => (p.1, FilterPayload.values p.2), recs,
        [SelectParams.filtered ("OR(" ++
          String.intercalate (",") (l.map fun p => mkFormula p.1 p.2) ++ ")")]⟩ := by
  simp only [runBatchState, runBatch, processKey, findExisting, List.find?,
    filtersToObj_wrap, hstore]
  rfl

/-- C1 amended: two findByFields calls in one window whose field maps are
permutations of each other normalize to the same loader key, the DataLoader
deduplicates them to one batch key, and that key triggers exactly one remote
filtered query; but queries are issued per key, not per window (see the
counterexample for two distinct keys). -/
theorem c1_equivalent_field_sets_one_query
    (l1 l2 : List (String × FieldValue))
    (store : SelectParams → Except String (List RawRecord))
    (hperm : l1.Perm l2) (hnd : (l1.map Prod.fst).Nodup)
    (hstore : ∀ p, ∃ recs, store p = Except.ok recs) :
    fieldsKey l1 = fieldsKey l2 ∧
    dedupKeys [fieldsKey l1, fieldsKey l2] = [fieldsKey l1] ∧
    batchFilteredCount store [fieldsKey l1] = 1 := by
  have hcongr := mapFieldsToFilters_congr (hperm.map Prod.fst) (lookup_perm_eq hperm hnd)
  have hk : fieldsKey l1 = fieldsKey l2 := by
    unfold fieldsKey
    rw [hcongr]
  refine ⟨hk, ?_, ?_⟩
  · rw [← hk]
    simp [dedupKeys]
  · obtain ⟨recs, hr⟩ := hstore (fieldsParams l1)
    have hrun := runBatchState_single_fields store (mapFieldsToFilters l1).2 recs hr
    simp only [batchFilteredCount, fieldsKey, hrun, countFiltered, List.countP,
      List.countP.go]
    rfl

theorem c1_equivalent_field_sets_one_query_witness :
    fieldsKey [(("b"), FieldValue.scalar (Scalar.str ("2"))),
        (("a"), FieldValue.scalar (Scalar.str ("1")))] =
      fieldsKey [(("a"), FieldValue.scalar (Scalar.str ("1"))),
        (("b"), FieldValue.scalar (Scalar.str ("2")))] ∧
    dedupKeys [fieldsKey [(("b"), FieldValue.scalar (Scalar.str ("2"))),
        (("a"), FieldValue.scalar (Scalar.str ("1")))],
      fieldsKey [(("a"), FieldValue.scalar (Scalar.str ("1"))),
        (("b"), FieldValue.scalar (Scalar.str ("2")))]] =
      [fieldsKey [(("b"), FieldValue.scalar (Scalar.str ("2"))),
        (("a"), FieldValue.scalar (Scalar.str ("1")))]] ∧
    batchFilteredCount (fun _ => Except.ok [])
      [fieldsKey [(("b"), FieldValue.scalar (Scalar.str ("2"))),
        (("a"), FieldValue.scalar (Scalar.str ("1")))]] = 1 :=
  c1_equivalent_field_sets_one_query _ _ (fun _ => Except.ok [])
    (by decide) (by decide) (fun p => ⟨[], rfl⟩)

def c1FieldsA : List (String × FieldValue) :=
  [(("a"), FieldValue.scalar (Scalar.str ("1")))]

def c1FieldsB : List (String × FieldValue) :=
  [(("b"), FieldValue.scalar (Scalar.str ("2")))]

/-- C1 counterexample: a window holding two distinct non-sentinel keys (on
different field names, so neither the DataLoader dedup nor the merge path
collapses them) issues two remote filtered queries, because the select is
awaited inside the per-key loop of the batch function, not once per window. -/
theorem c1_two_distinct_keys_two_queries :
    dedupKeys [fieldsKey c1FieldsA, fieldsKey c1FieldsB] =
      [fieldsKey c1FieldsA, fieldsKey c1FieldsB] ∧
    batchFilteredCount (fun _ => Except.ok [])
      [fieldsKey c1FieldsA, fieldsKey c1FieldsB] = 2 := by
  exact ⟨by decide, by decide⟩

def c5Rec : RawRecord := ⟨("c1"), (""), []⟩

def c5Fields : List (String × FieldValue) :=
  [(("a"), FieldValue.scalar (Scalar.str ("x")))]

def c5State : SysState :=
  ⟨[], [((cacheKeyBase ("t") ++ (mapFieldsToFilters c5Fields).1), CacheValue.many [c5Rec])], []⟩

/-- C5 counterexample: the shared cache holds a truthy entry under exactly
the key findByFields computes, and ttl is set, yet the call dispatches a
remote query, returns the loader result instead of the cached value, and
leaves the shared cache unwritten — the hit-return and the ttl store are
commented out in the source. -/
theorem c5_cache_hit_ignored_and_never_stored :
    truthy (c5State.sharedCache.lookup
      (cacheKeyBase ("t") ++ (mapFieldsToFilters c5Fields).1)) = true ∧
    resultValue (findByFieldsOp (fun _ => Except.ok []) 1 ("t") c5Fields
      (some 60) c5State) = some (Except.ok []) ∧
    ([] : List RawRecord) ≠ [c5Rec] ∧
    callsAfter (findByFieldsOp (fun _ => Except.ok []) 1 ("t") c5Fields
      (some 60) c5State) = some [fieldsParams c5Fields] ∧
    sharedAfter (findByFieldsOp (fun _ => Except.ok []) 1 ("t") c5Fields
      (some 60) c5State) = some c5State.sharedCache := by
  refine ⟨rfl, rfl, by decide, rfl, rfl⟩

/-- C5 amended: findByFields computes the cache key and reads the shared
cache, but the result is discarded; whatever the cache holds and whatever
ttl is given, it always dispatches through the loader, never writes the
shared cache, and returns the loader result.  Stated for single-field keys,
whose batch answer shape matches the DataLoader length contract. -/
theorem c5_amended_cache_read_discarded_never_stored
    (store : SelectParams → Except String (List RawRecord))
    (fuel : Nat) (tableName : String) (ff : List (String × FieldValue))
    (ttl : Option Nat) (st : SysState) (n : String) (vs : List Scalar)
    (hmemo : st.loaderCache.lookup (keyString (fieldsKey ff)) = none)
    (hl : (mapFieldsToFilters ff).2 = [(n, vs)])
    (hstore : store (fieldsParams ff) = Except.ok []) :
    resultValue (findByFieldsOp store fuel tableName ff ttl st) =
      some (Except.ok []) ∧
    callsAfter (findByFieldsOp store fuel tableName ff ttl st) =
      some (st.calls ++ [fieldsParams ff]) ∧
    sharedAfter (findByFieldsOp store fuel tableName ff ttl st) =
      some st.sharedCache := by
  have hrun := runBatchState_single_fields store (mapFieldsToFilters ff).2 [] hstore
  rw [hl] at hrun
  have hmemo2 : st.loaderCache.lookup
      (keyString (BatchKey.filt (filtersToObj (mapFieldsToFilters ff).2))) = none := hmemo
  rw [hl] at hmemo2
  have hentry : orderRecordsEntry [] fuel (n, FilterPayload.values vs) = some [] := by
    cases hn : n == ("ALL") <;> simp [orderRecordsEntry, hn, jsFilter]
  have hkey : fieldsKey ff = BatchKey.filt (filtersToObj [(n, vs)]) := by
    unfold fieldsKey
    rw [hl]
  have hparams : fieldsParams ff = SelectParams.filtered ("OR(" ++
      String.intercalate (",") ([(n, vs)].map fun p => mkFormula p.1 p.2) ++ ")") := by
    unfold fieldsParams
    rw [hl]
  refine ⟨?_, ?_, ?_⟩ <;>
    simp only [findByFieldsOp, loaderLoad, hkey, hparams, hmemo2, dispatchWindow, hrun,
      List.map, List.length_cons, List.length_nil, orderRecords, hentry,
      sequenceEntries, resultValue, callsAfter, sharedAfter] <;>
    simp

/-- C6 amended: findAll does not prime per-id lookups.  After findAll
resolves, nothing memoizes the returned records under their ids: a
subsequent findOneById for a record of the all-set misses the shared cache
and the loader memo (only the ALL sentinel was memoized) and issues an
additional remote filtered query; it resolves, but to the absent value,
since reconciliation filters on a fields-level id entry that raw records do
not carry. -/
theorem c6_findAll_does_not_prime_id_lookups
    (store : SelectParams → Except String (List RawRecord))
    (fuel : Nat) (tableName id : String) (st : SysState)
    (recsAll : List RawRecord) (r : RawRecord)
    (hAllCache : st.sharedCache.lookup (cacheKeyBase tableName ++ "all") = none)
    (hAllLoader : st.loaderCache.lookup (("ALL")) = none)
    (hstoreAll : store SelectParams.allParams = Except.ok recsAll)
    (hmem : r ∈ recsAll) (hid : r.id = id)
    (hIdCache : st.sharedCache.lookup (cacheKeyBase tableName ++ id) = none)
    (hIdLoader : st.loaderCache.lookup (keyString (idBatchKey id)) = none)
    (hstoreId : store (idParams id) = Except.ok []) :
    resultValue (findAllThenById store fuel tableName id st) =
      some (Except.ok none) ∧
    callsAfter (findAllThenById store fuel tableName id st) =
      some (st.calls ++ [SelectParams.allParams, idParams id]) := by
  have hAllLoader2 : st.loaderCache.lookup (keyString BatchKey.all) = none := hAllLoader
  have h1 : findAllOp store fuel tableName none st =
      some (Except.ok (recsAll,
        ⟨st.loaderCache ++ [(("ALL"), recsAll)], st.sharedCache,
          st.calls ++ [SelectParams.allParams]⟩)) := by
    simp only [findAllOp, loaderLoad, dispatchWindow, runBatchState, runBatch,
      processKey, hAllCache, hAllLoader2, hstoreAll, truthy, orderRecords,
      orderRecordsEntry, sequenceEntries, List.map, List.length, keyString]
    simp [ttlTruthy, hAllLoader]
  have hIdLoader1 : (st.loaderCache ++ [(("ALL"), recsAll)]).lookup
      (keyString (idBatchKey id)) = none := by
    rw [lookup_append_none _ _ _ hIdLoader]
    have hne : (keyString (idBatchKey id) == ("ALL")) = false :=
      beq_eq_false_iff_ne.mpr (keyString_filt_ne_all _)
    simp [List.lookup, hne]
  have hIdLoader2 : (st.loaderCache ++ [(("ALL"), recsAll)]).lookup
      (keyString (BatchKey.filt [(("id"), FieldValue.scalar (Scalar.str id))])) = none :=
    hIdLoader1
  have hstoreId2 : store (SelectParams.filtered ("OR(" ++
      String.intercalate (",") [mkFormula ("id") [Scalar.str id]] ++ ")")) =
      Except.ok [] := hstoreId
  have h2 : findOneByIdOp store fuel tableName id none
      ⟨st.loaderCache ++ [(("ALL"), recsAll)], st.sharedCache,
        st.calls ++ [SelectParams.allParams]⟩ =
      some (Except.ok ((none : Option RawRecord),
        ⟨(st.loaderCache ++ [(("ALL"), recsAll)]) ++
            [(keyString (idBatchKey id), [])], st.sharedCache,
          (st.calls ++ [SelectParams.allParams]) ++ [SelectParams.filtered ("OR(" ++
            String.intercalate (",") [mkFormula ("id") [Scalar.str id]] ++ ")")]⟩)) := by
    simp only [findOneByIdOp, loaderLoad, dispatchWindow, runBatchState, runBatch,
      processKey, findExisting, hIdCache, hIdLoader2, hstoreId2, truthy,
      orderRecords, orderRecordsEntry, sequenceEntries, jsFilter, idBatchKey,
      List.find?, List.map, wrapValue, List.length, ttlTruthy]
    simp [ttlTruthy, keyString]
  refine ⟨?_, ?_⟩
  · simp only [findAllThenById, h1, h2, resultValue]
  · simp only [findAllThenById, h1, h2, callsAfter]
    have : idParams id = SelectParams.filtered ("OR(" ++
        String.intercalate (",") [mkFormula ("id") [Scalar.str id]] ++ ")") := rfl
    rw [this]
    simp

def c6Rec : RawRecord :=
  ⟨("r1"), (""), [(("username"), FieldValue.scalar (Scalar.str ("alice")))]⟩

def c6Store : SelectParams → Except String (List RawRecord)
  | SelectParams.allParams => Except.ok [c6Rec]
  | SelectParams.filtered _ => Except.ok []

/-- C6 counterexample: findAll resolves with r1 in the all-set, yet the
subsequent findOneById for r1 issues an additional remote filtered query —
the query log of the two sequential calls holds two remote queries, not
one. -/
theorem c6_findOneById_after_findAll_queries_again :
    c6Store SelectParams.allParams = Except.ok [c6Rec] ∧
    c6Rec.id = ("r1") ∧
    callsAfter (findAllThenById c6Store 1 ("tbl") ("r1") ⟨[], [], []⟩) =
      some [SelectParams.allParams, idParams ("r1")] :=
  ⟨rfl, rfl, rfl⟩

theorem c6_findAll_does_not_prime_id_lookups_witness :
    resultValue (findAllThenById c6Store 1 ("tbl2") ("r1") ⟨[], [], []⟩) =
      some (Except.ok none) ∧
    callsAfter (findAllThenById c6Store 1 ("tbl2") ("r1") ⟨[], [], []⟩) =
      some [SelectParams.allParams, idParams ("r1")] :=
  c6_findAll_does_not_prime_id_lookups c6Store 1 ("tbl2") ("r1") ⟨[], [], []⟩
    [c6Rec] c6Rec rfl rfl rfl (by decide) rfl rfl rfl rfl

def c7Fields : List (String × FieldValue) :=
  [(("topic"), FieldValue.scalar (Scalar.str ("ai")))]

def c7Key : String := (mapFieldsToFilters c7Fields).1

def c7State : SysState :=
  ⟨[(c7Key, [])], [((cacheKeyBase ("tbl") ++ c7Key), CacheValue.many [])], []⟩

/-- C7: deleteFromCacheByFields clears the memoized loader key, but leaves
the shared cache entry under the key findByFields reads untouched, because
the source concatenates the DataLoader object (stringifying to
[object Object]) instead of the loader key when building the cache key; on
a state where nothing was ever cached it is a no-op without error. -/
theorem c7_delete_by_fields_misses_shared_cache :
    (deleteFromCacheByFieldsOp ("tbl") c7Fields c7State).loaderCache = [] ∧
    (deleteFromCacheByFieldsOp ("tbl") c7Fields c7State).sharedCache =
      c7State.sharedCache ∧
    deleteFromCacheByFieldsOp ("tbl") c7Fields ⟨[], [], []⟩ = ⟨[], [], []⟩ :=
  ⟨by decide, by decide, by decide⟩

theorem c5_amended_cache_read_discarded_never_stored_witness :
    resultValue (findByFieldsOp (fun _ => Except.ok []) 1 ("t") c5Fields none
      ⟨[], [], []⟩) = some (Except.ok []) ∧
    callsAfter (findByFieldsOp (fun _ => Except.ok []) 1 ("t") c5Fields none
      ⟨[], [], []⟩) = some [fieldsParams c5Fields] ∧
    sharedAfter (findByFieldsOp (fun _ => Except.ok []) 1 ("t") c5Fields none
      ⟨[], [], []⟩) = some [] :=
  c5_amended_cache_read_discarded_never_stored (fun _ => Except.ok []) 1 ("t")
    c5Fields none ⟨[], [], []⟩ ("a") [Scalar.str ("x")] rfl rfl rfl
